import Mathlib

/-!
Verification of the `opentel-with-graphana-tempo-prometheus` repository
against its natural-language specification.

The repository's own application code is `server.js` (a five-route Express
sample service instrumented with OpenTelemetry); it is embedded in the
`Server` namespace.  The specification additionally describes a minimal
telemetry collector pipeline (Receiver → Batcher → Router → Exporter) that
is configured but not implemented in this repository; that pipeline is
modelled from the specification's words in the `Pipeline` namespace.
-/

namespace Server

/-- An HTTP request as the Express handlers in `server.js` observe it:
only the method and URL are read (`req.method`, `req.url`). -/
structure Request where
  method : String
  url : String
deriving DecidableEq

/-- The mutable state of an OpenTelemetry span as manipulated by the
`/api/hello` handler in `server.js`: attributes set with `setAttributes`,
a status set with `setStatus` (code and message), exceptions recorded with
`recordException`, an `ended` flag set by `span.end()`, and the trace
identifier exposed by `span.spanContext().traceId`. -/
structure Span where
  name : String
  traceId : String
  attributes : List (String × String)
  statusCode : Option Nat
  statusMessage : Option String
  exceptions : List String
  ended : Bool
deriving DecidableEq

/-- `tracer.startSpan(name)` in `server.js`: a fresh span with no
attributes, no status, no recorded exceptions, and not yet ended.  The
trace identifier is chosen by the tracer and is a parameter here. -/
def startSpan (tid : String) (name : String) : Span :=
  { name := name
    traceId := tid
    attributes := []
    statusCode := none
    statusMessage := none
    exceptions := []
    ended := false }

/-- The JSON body the `GET /health` handler sends. -/
structure HealthBody where
  status : String
  service : String
deriving DecidableEq

/-- The `GET /health` handler of `server.js` (line 78-80):
`res.json({ status: 'ok', service: 'node-api' })`.  It reads nothing from
the request and touches no server state, so it is a pure function of the
request. -/
def healthHandler (_req : Request) : HealthBody :=
  { status := "ok", service := "node-api" }

/-- The JSON body the `GET /api/hello` handler sends on success. -/
structure HelloBody where
  message : String
  timestamp : String
  responseTraceId : String
deriving DecidableEq

/-- Outcome of one execution of the `/api/hello` handler: either the JSON
response was sent, or the handler re-threw an exception (the `throw error`
in its catch block). -/
inductive HelloOutcome
  | ok (body : HelloBody)
  | thrown (err : String)
deriving DecidableEq

/-- The `GET /api/hello` handler of `server.js` (lines 53-76).
`tid` is the trace identifier the tracer assigns to the started span and
`now` is `new Date().toISOString()`.  `bodyError` models whether the try
block throws while sending the response (`some err` carries the thrown
error's message); on that path the catch block records the exception on
the span, sets the span status to `{ code: 2, message }` and re-throws,
and the finally block calls `span.end()` on both paths. -/
def helloHandler (req : Request) (tid : String) (now : String)
    (bodyError : Option String) : HelloOutcome × Span :=
  let span := startSpan tid "hello-endpoint"
  let span := { span with attributes :=
      [("http.method", req.method), ("http.url", req.url),
       ("custom.message", "Hello from OTel!")] }
  match bodyError with
  | none =>
      let body : HelloBody :=
        { message := "Hello OTel!", timestamp := now,
          responseTraceId := span.traceId }
      (HelloOutcome.ok body, { span with ended := true })
  | some err =>
      let span := { span with
          exceptions := span.exceptions ++ [err]
          statusCode := some 2
          statusMessage := some err }
      (HelloOutcome.thrown err, { span with ended := true })

end Server

namespace Pipeline

/-- Modelled from the spec: the two telemetry kinds the pipeline routes
(traces vs. metrics); the pipeline itself is described in the spec but not
implemented in this repository. -/
inductive TelemetryKind
  | trace
  | metric
deriving DecidableEq

/-- Modelled from the spec: a Span — "a trace identifier, span identifier,
parent identifier (optional), name, start/end timestamps, attribute
mapping (string keys, scalar values), and status"; the Span arm of the
spec's TelemetryRecord, absent from the source. -/
structure SpanData where
  traceId : Nat
  spanId : Nat
  parentId : Option Nat
  name : String
  startTs : Nat
  endTs : Nat
  attributes : List (String × Nat)
  status : Nat
deriving DecidableEq

/-- Modelled from the spec: a MetricPoint — "a metric name, timestamp,
numeric value, and label mapping"; the MetricPoint arm of the spec's
TelemetryRecord, absent from the source. -/
structure MetricPoint where
  name : String
  ts : Nat
  value : Int
  labels : List (String × String)
deriving DecidableEq

/-- Modelled from the spec: TelemetryRecord, the "tagged union of
{Span, MetricPoint}" that the pipeline moves; absent from the source. -/
inductive TelemetryRecord
  | spanRec (s : SpanData)
  | metricRec (m : MetricPoint)
deriving DecidableEq

/-- The telemetry kind of a record: spans are trace telemetry, metric
points are metric telemetry. -/
def TelemetryRecord.kind : TelemetryRecord → TelemetryKind
  | .spanRec _ => .trace
  | .metricRec _ => .metric

/-- Modelled from the spec: the error taxonomy of §7 — DecodeError,
OverloadError, ExportUnavailable, ExportTimeout, ExportRejected; absent
from the source. -/
inductive PipelineError
  | decodeError
  | overloadError
  | exportUnavailable
  | exportTimeout
  | exportRejected
deriving DecidableEq

/-- Modelled from the spec: which errors the pipeline retries internally —
"`ExportUnavailable`/`ExportTimeout` (retried with backoff)"; `DecodeError`
is "never retried" and `OverloadError` is left to the caller. -/
def retriedInternally : PipelineError → Bool
  | .exportUnavailable => true
  | .exportTimeout => true
  | _ => false

/-- Modelled from the spec: an encoded ingestion payload — either a valid
encoding of a list of telemetry records or a malformed byte blob; the wire
format itself is absent from the source. -/
inductive Encoded
  | valid (recs : List TelemetryRecord)
  | malformed (raw : String)
deriving DecidableEq

/-- Modelled from the spec: the Receiver's decoder — "Decodes into
TelemetryRecord values; malformed payloads are rejected with a
decode-error response"; absent from the source. -/
def decode : Encoded → Except PipelineError (List TelemetryRecord)
  | .valid recs => .ok recs
  | .malformed _ => .error .decodeError

/-- Modelled from the spec: the Receiver's configuration — the bounded
queue capacity and the backpressure blocking timeout of §4.1/§6. -/
structure ReceiverConfig where
  queueCapacity : Nat
  blockTimeout : Nat
deriving DecidableEq

/-- Modelled from the spec: the Receiver's state, one bounded internal
queue per telemetry kind ("enqueues each decoded record onto the
kind-appropriate internal queue"). -/
structure ReceiverState where
  traceQueue : List TelemetryRecord
  metricQueue : List TelemetryRecord
deriving DecidableEq

/-- The queue of the given kind. -/
def queueOf (s : ReceiverState) : TelemetryKind → List TelemetryRecord
  | .trace => s.traceQueue
  | .metric => s.metricQueue

/-- Append a record to its kind's queue. -/
def pushRecord (s : ReceiverState) (r : TelemetryRecord) : ReceiverState :=
  match r.kind with
  | .trace => { s with traceQueue := s.traceQueue ++ [r] }
  | .metric => { s with metricQueue := s.metricQueue ++ [r] }

/-- Modelled from the spec: ingestion of one decoded record when no
consumer is draining the queue — "if the queue is full, the Receiver
blocks the caller up to a configurable timeout, then fails the request
with an overload error".  The result is the new state and, on failure,
how long the caller was blocked together with the error. -/
def ingestRecordNoConsumer (cfg : ReceiverConfig) (s : ReceiverState)
    (r : TelemetryRecord) : ReceiverState × Option (Nat × PipelineError) :=
  if (queueOf s r.kind).length < cfg.queueCapacity then
    (pushRecord s r, none)
  else
    (s, some (cfg.blockTimeout, PipelineError.overloadError))

/-- Enqueue a list of decoded records one by one, stopping at the first
overload; records accepted before the failure stay in the queue. -/
def enqueueAll (cfg : ReceiverConfig) (s : ReceiverState) :
    List TelemetryRecord → ReceiverState × Option PipelineError
  | [] => (s, none)
  | r :: rs =>
    match ingestRecordNoConsumer cfg s r with
    | (s', none) => enqueueAll cfg s' rs
    | (s', some (_, e)) => (s', some e)

/-- Modelled from the spec: the Receiver's ingestion endpoint — decode the
payload, reject malformed payloads with a decode error (they "never enter
the pipeline"), otherwise enqueue each record onto its kind's queue. -/
def ingestPayload (cfg : ReceiverConfig) (s : ReceiverState) (p : Encoded) :
    ReceiverState × Option PipelineError :=
  match decode p with
  | .error e => (s, some e)
  | .ok recs => enqueueAll cfg s recs

/-- Ingest a sequence of single records, reporting each call's outcome
(`none` = accepted). -/
def ingestSeq (cfg : ReceiverConfig) (s : ReceiverState) :
    List TelemetryRecord → ReceiverState × List (Option (Nat × PipelineError))
  | [] => (s, [])
  | r :: rs =>
    let (s', o) := ingestRecordNoConsumer cfg s r
    let (s'', os) := ingestSeq cfg s' rs
    (s'', o :: os)

/-- A concrete metric record used in the backpressure scenario. -/
def mkMetric (i : Nat) : TelemetryRecord :=
  TelemetryRecord.metricRec { name := "m", ts := i, value := 0, labels := [] }

/-- Modelled from the spec: the Batcher's configuration — the flush
triggers "batch max size" and "batch max age" of §6; the Batcher is absent
from the source. -/
structure BatcherConfig where
  maxSize : Nat
  maxAge : Nat
deriving DecidableEq

/-- Modelled from the spec: a Batch — "an ordered, append-only sequence of
TelemetryRecord of one kind"; `bid` is the Batcher's sequence number for
the batch, used to track that each sealed batch is consumed exactly once. -/
structure Batch where
  bid : Nat
  kind : TelemetryKind
  recs : List TelemetryRecord
deriving DecidableEq

/-- "Created empty by the Batcher": a fresh open batch holds no records. -/
def Batch.new (bid : Nat) (k : TelemetryKind) : Batch :=
  { bid := bid, kind := k, recs := [] }

/-- Modelled from the spec: the Batcher's state for one telemetry kind —
the current open batch, the arrival time of its oldest record (if any),
and the next batch sequence number. -/
structure BatcherState where
  kind : TelemetryKind
  cur : Batch
  curOldest : Option Nat
  nextBid : Nat
deriving DecidableEq

/-- The Batcher's initial state: an empty open batch. -/
def BatcherState.init (k : TelemetryKind) : BatcherState :=
  { kind := k, cur := Batch.new 0 k, curOldest := none, nextBid := 1 }

/-- Events driving the Batcher: a record arriving from the input queue at
a given time, the passage of time (age check), and cooperative shutdown. -/
inductive BatchEvent
  | add (t : Nat) (r : TelemetryRecord)
  | tick (t : Nat)
  | shutdown
deriving DecidableEq

/-- Seal the current open batch and hand it off, starting a fresh empty
open batch: the spec's single ownership-transfer point. -/
def sealCur (s : BatcherState) : BatcherState × List Batch :=
  ({ s with cur := Batch.new s.nextBid s.kind
            curOldest := none
            nextBid := s.nextBid + 1 },
   [s.cur])

/-- Modelled from the spec: one Batcher step — accumulate arriving records
into the current open Batch and flush "when either the record count
reaches a configured maximum or the oldest record in the batch has aged
past a configured maximum duration — whichever occurs first"; "on
shutdown, flushes any partial batch rather than discarding it". -/
def batcherStep (cfg : BatcherConfig) (s : BatcherState) :
    BatchEvent → BatcherState × List Batch
  | .add t r =>
      let s' := { s with cur := { s.cur with recs := s.cur.recs ++ [r] }
                         curOldest := some (s.curOldest.getD t) }
      if cfg.maxSize ≤ s'.cur.recs.length then sealCur s' else (s', [])
  | .tick t =>
      match s.curOldest with
      | none => (s, [])
      | some t0 => if cfg.maxAge < t - t0 then sealCur s else (s, [])
  | .shutdown =>
      if s.cur.recs.isEmpty then (s, []) else sealCur s

/-- Run the Batcher over a sequence of events, collecting every sealed
batch it hands off, in order. -/
def batcherRun (cfg : BatcherConfig) (s : BatcherState) :
    List BatchEvent → BatcherState × List Batch
  | [] => (s, [])
  | e :: es =>
      let (s', out) := batcherStep cfg s e
      let (s'', outs) := batcherRun cfg s' es
      (s'', out ++ outs)

/-- The records an event sequence feeds into the Batcher, in order. -/
def addedRecords : List BatchEvent → List TelemetryRecord
  | [] => []
  | .add _ r :: es => r :: addedRecords es
  | _ :: es => addedRecords es

/-- Modelled from the spec: the Exporter's retry configuration — "retry
max attempts: bounds exporter retries, retry backoff base/cap: retry
timing" (§6); the Exporter is absent from the source. -/
structure RetryConfig where
  maxAttempts : Nat
  backoffBase : Nat
  backoffCap : Nat
deriving DecidableEq

/-- Modelled from the spec: the outcome a sink returns for one send
attempt — success, or a failure of the §4.3 taxonomy: `Unavailable`
(retryable), `Rejected` (permanent), `Timeout` (retryable). -/
inductive SendOutcome
  | success
  | unavailable
  | rejected
  | timedOut
deriving DecidableEq

/-- Modelled from the spec: `Unavailable` and `Timeout` are retried,
`Rejected` is "not retried". -/
def retryableOutcome : SendOutcome → Bool
  | .unavailable => true
  | .timedOut => true
  | _ => false

/-- Modelled from the spec: exponential backoff delay before retry `i`,
bounded by the configured cap. -/
def backoffDelay (cfg : RetryConfig) (i : Nat) : Nat :=
  min (cfg.backoffBase * 2 ^ (i - 1)) cfg.backoffCap

/-- Observable events of one export of a sealed batch: each numbered send
attempt with the sink's outcome, and the single terminal report (the batch
delivered, or reported permanently failed). -/
inductive ExportEvent
  | attempt (i : Nat) (o : SendOutcome)
  | reportFailed (o : SendOutcome)
  | reportDelivered
deriving DecidableEq

/-- Modelled from the spec: the Exporter's retry loop, starting at attempt
number `i` with `fuel` attempts still allowed — success stops with a
delivery report; `Rejected` stops immediately (never retried) with one
failure report; a retryable failure is retried while attempts remain, and
"after exhausting retries, the batch is reported as permanently failed".
The sink's behaviour is a function from each attempt number to its
outcome. -/
def exportFrom (sink : Nat → SendOutcome) : Nat → Nat → List ExportEvent
  | _, 0 => []
  | i, fuel + 1 =>
      match sink i with
      | .success => [.attempt i .success, .reportDelivered]
      | .rejected => [.attempt i .rejected, .reportFailed .rejected]
      | .unavailable =>
          if fuel = 0 then [.attempt i .unavailable, .reportFailed .unavailable]
          else .attempt i .unavailable :: exportFrom sink (i + 1) fuel
      | .timedOut =>
          if fuel = 0 then [.attempt i .timedOut, .reportFailed .timedOut]
          else .attempt i .timedOut :: exportFrom sink (i + 1) fuel

/-- Modelled from the spec: the Exporter "accepts a sealed Batch and
attempts delivery to a configured sink"; the sealed batch itself is
immutable and returned untouched next to the attempt/report trace. -/
def exportSealed (cfg : RetryConfig) (sink : Nat → SendOutcome) (b : Batch) :
    Batch × List ExportEvent :=
  (b, exportFrom sink 1 cfg.maxAttempts)

/-- Is the event a send attempt? -/
def isAttempt : ExportEvent → Bool
  | .attempt _ _ => true
  | _ => false

/-- Is the event a permanent-failure report? -/
def isFailReport : ExportEvent → Bool
  | .reportFailed _ => true
  | _ => false

/-- Is the event a delivery report? -/
def isDeliveredReport : ExportEvent → Bool
  | .reportDelivered => true
  | _ => false

/-- Number of send attempts in an export trace. -/
def attemptCount (es : List ExportEvent) : Nat :=
  (es.filter isAttempt).length

/-- Number of permanent-failure reports in an export trace. -/
def failReportCount (es : List ExportEvent) : Nat :=
  (es.filter isFailReport).length

/-- Number of delivery reports in an export trace. -/
def deliveredReportCount (es : List ExportEvent) : Nat :=
  (es.filter isDeliveredReport).length

/-- Modelled from the spec: PipelineConfig — the "static binding of
receiver endpoints to exporter targets per telemetry kind" together with
the per-component configuration surface of §6; absent from the source. -/
structure PipelineConfig where
  bindings : TelemetryKind → List Nat
  receiverCfg : ReceiverConfig
  batcherCfg : BatcherConfig
  retryCfg : RetryConfig

/-- Modelled from the spec: the Pipeline Router — "delivers each sealed
batch to all bound exporters independently (fan-out)"; each bound exporter
identifier is paired with the (unmodified) sealed batch. -/
def route (cfg : PipelineConfig) (b : Batch) : List (Nat × Batch) :=
  (cfg.bindings b.kind).map (fun e => (e, b))

/-- The records of the valid payloads among the inputs, in ingestion
order — exactly the records the Receiver accepts (malformed payloads are
rejected and contribute nothing). -/
def acceptedRecords (inputs : List Encoded) : List TelemetryRecord :=
  (inputs.map (fun p =>
    match decode p with
    | .ok rs => rs
    | .error _ => [])).flatten

/-- The accepted records of one telemetry kind, in order — the contents of
that kind's queue once every input has been ingested. -/
def recordsOfKind (k : TelemetryKind) (inputs : List Encoded) :
    List TelemetryRecord :=
  (acceptedRecords inputs).filter (fun r => decide (r.kind = k))

/-- The Batcher event sequence of a completed run for one kind: each
queued record arrives in order (arrival index as its time stamp), then the
pipeline shuts down, flushing the final partial batch. -/
def batchEventsOf (k : TelemetryKind) (inputs : List Encoded) :
    List BatchEvent :=
  (recordsOfKind k inputs).enum.map (fun p => BatchEvent.add p.1 p.2) ++
    [BatchEvent.shutdown]

/-- The sealed batches of kind `k` a completed pipeline run hands to the
Router. -/
def pipelineBatches (cfg : PipelineConfig) (inputs : List Encoded)
    (k : TelemetryKind) : List Batch :=
  (batcherRun cfg.batcherCfg (BatcherState.init k) (batchEventsOf k inputs)).2

/-- Every (exporter, sealed batch) delivery the Router performs over a
completed pipeline run: each sealed batch of each kind is routed exactly
once, fanning out to all exporters bound to that kind. -/
def pipelineDeliveries (cfg : PipelineConfig) (inputs : List Encoded) :
    List (Nat × Batch) :=
  ((pipelineBatches cfg inputs .trace).map (route cfg)).flatten ++
    ((pipelineBatches cfg inputs .metric).map (route cfg)).flatten

end Pipeline

namespace Pipeline

theorem batcherRun_nil (cfg : BatcherConfig) (s : BatcherState) :
    batcherRun cfg s [] = (s, []) := rfl

theorem batcherRun_cons (cfg : BatcherConfig) (s : BatcherState)
    (e : BatchEvent) (es : List BatchEvent) :
    batcherRun cfg s (e :: es) =
      ((batcherRun cfg (batcherStep cfg s e).1 es).1,
        (batcherStep cfg s e).2 ++ (batcherRun cfg (batcherStep cfg s e).1 es).2) :=
  rfl

/-- One Batcher step keeps the open batch strictly below the maximum size
and only emits batches within the maximum size. -/
theorem batcherStep_size_inv (cfg : BatcherConfig) (h1 : 1 ≤ cfg.maxSize)
    (s : BatcherState) (hs : s.cur.recs.length < cfg.maxSize) (e : BatchEvent) :
    (batcherStep cfg s e).1.cur.recs.length < cfg.maxSize ∧
      ∀ b ∈ (batcherStep cfg s e).2, b.recs.length ≤ cfg.maxSize := by
  cases e with
  | add t r =>
      simp only [batcherStep]
      split
      · constructor
        · simp [sealCur, Batch.new]
          omega
        · intro b hb
          simp [sealCur] at hb
          subst hb
          simp
          omega
      · rename_i hcond
        simp at hcond ⊢
        omega
  | tick t =>
      cases h0 : s.curOldest with
      | none =>
          simp only [batcherStep, h0]
          exact ⟨hs, by simp⟩
      | some t0 =>
          simp only [batcherStep, h0]
          split
          · constructor
            · simp [sealCur, Batch.new]
              omega
            · intro b hb
              simp [sealCur] at hb
              subst hb
              omega
          · exact ⟨hs, by simp⟩
  | shutdown =>
      simp only [batcherStep]
      split
      · exact ⟨hs, by simp⟩
      · constructor
        · simp [sealCur, Batch.new]
          omega
        · intro b hb
          simp [sealCur] at hb
          subst hb
          omega

/-- Over a whole run, the open batch stays strictly below the maximum size
and every sealed batch stays within it. -/
theorem batcherRun_size_inv (cfg : BatcherConfig) (h1 : 1 ≤ cfg.maxSize)
    (es : List BatchEvent) :
    ∀ s : BatcherState, s.cur.recs.length < cfg.maxSize →
      (batcherRun cfg s es).1.cur.recs.length < cfg.maxSize ∧
        ∀ b ∈ (batcherRun cfg s es).2, b.recs.length ≤ cfg.maxSize := by
  induction es with
  | nil =>
      intro s hs
      exact ⟨hs, by simp [batcherRun_nil]⟩
  | cons e es ih =>
      intro s hs
      obtain ⟨h1step, h2step⟩ := batcherStep_size_inv cfg h1 s hs e
      obtain ⟨h1run, h2run⟩ := ih (batcherStep cfg s e).1 h1step
      rw [batcherRun_cons]
      refine ⟨h1run, ?_⟩
      intro b hb
      rcases List.mem_append.mp hb with hb | hb
      · exact h2step b hb
      · exact h2run b hb

/-- The records an event list adds, distributing over cons. -/
theorem addedRecords_cons (e : BatchEvent) (es : List BatchEvent) :
    addedRecords (e :: es) = addedRecords [e] ++ addedRecords es := by
  cases e <;> simp [addedRecords]

/-- The records an event list adds, distributing over append. -/
theorem addedRecords_append (es1 es2 : List BatchEvent) :
    addedRecords (es1 ++ es2) = addedRecords es1 ++ addedRecords es2 := by
  induction es1 with
  | nil => simp [addedRecords]
  | cons e es ih =>
      rw [List.cons_append, addedRecords_cons, ih, addedRecords_cons e es,
        List.append_assoc]

/-- Feeding a list of records as `add` events adds exactly those records. -/
theorem addedRecords_map_add (t : Nat) (l : List TelemetryRecord) :
    addedRecords (l.map (BatchEvent.add t)) = l := by
  induction l with
  | nil => simp [addedRecords]
  | cons r l ih => simp [addedRecords, ih]

/-- Record conservation for one step: the records sealed off plus the
records still open are the records that were open before plus the record
the event added. -/
theorem batcherStep_conservation (cfg : BatcherConfig) (s : BatcherState)
    (e : BatchEvent) :
    ((batcherStep cfg s e).2.map Batch.recs).flatten ++
        (batcherStep cfg s e).1.cur.recs =
      s.cur.recs ++ addedRecords [e] := by
  cases e with
  | add t r =>
      simp only [batcherStep, addedRecords]
      split
      · simp [sealCur, Batch.new]
      · simp
  | tick t =>
      cases h0 : s.curOldest with
      | none => simp [batcherStep, h0, addedRecords]
      | some t0 =>
          simp only [batcherStep, h0, addedRecords]
          split
          · simp [sealCur, Batch.new]
          · simp
  | shutdown =>
      simp only [batcherStep, addedRecords]
      split
      · simp
      · simp [sealCur, Batch.new]

/-- Record conservation for a whole run: no record handed to the Batcher
is lost — the sealed batches plus the still-open batch hold exactly the
records that were open at the start plus every record added since. -/
theorem batcherRun_conservation (cfg : BatcherConfig) (es : List BatchEvent) :
    ∀ s : BatcherState,
      ((batcherRun cfg s es).2.map Batch.recs).flatten ++
          (batcherRun cfg s es).1.cur.recs =
        s.cur.recs ++ addedRecords es := by
  induction es with
  | nil => intro s; simp [batcherRun_nil, addedRecords]
  | cons e es ih =>
      intro s
      rw [batcherRun_cons]
      simp only [List.map_append, List.flatten_append, List.append_assoc]
      rw [ih (batcherStep cfg s e).1, ← List.append_assoc,
        batcherStep_conservation, addedRecords_cons e es, List.append_assoc]

/-- After a shutdown step the open batch is empty. -/
theorem batcherStep_shutdown_cur (cfg : BatcherConfig) (s : BatcherState) :
    (batcherStep cfg s BatchEvent.shutdown).1.cur.recs = [] := by
  simp only [batcherStep]
  split
  · next h => exact List.isEmpty_iff.mp h
  · simp [sealCur, Batch.new]

/-- Running an appended event list runs the two parts in sequence. -/
theorem batcherRun_append (cfg : BatcherConfig) (es1 es2 : List BatchEvent) :
    ∀ s : BatcherState,
      batcherRun cfg s (es1 ++ es2) =
        ((batcherRun cfg (batcherRun cfg s es1).1 es2).1,
          (batcherRun cfg s es1).2 ++
            (batcherRun cfg (batcherRun cfg s es1).1 es2).2) := by
  induction es1 with
  | nil => intro s; simp [batcherRun_nil]
  | cons e es ih =>
      intro s
      rw [List.cons_append, batcherRun_cons, ih, batcherRun_cons,
        List.append_assoc]

/-- Unfolding of the retry loop when the sink answers success. -/
theorem exportFrom_succ_success (sink : Nat → SendOutcome) (i fuel : Nat)
    (hs : sink i = SendOutcome.success) :
    exportFrom sink i (fuel + 1) =
      [ExportEvent.attempt i SendOutcome.success,
        ExportEvent.reportDelivered] := by
  simp [exportFrom, hs]

/-- Unfolding of the retry loop when the sink answers a permanent
rejection. -/
theorem exportFrom_succ_rejected (sink : Nat → SendOutcome) (i fuel : Nat)
    (hs : sink i = SendOutcome.rejected) :
    exportFrom sink i (fuel + 1) =
      [ExportEvent.attempt i SendOutcome.rejected,
        ExportEvent.reportFailed SendOutcome.rejected] := by
  simp [exportFrom, hs]

/-- Unfolding of the retry loop when the sink is unavailable. -/
theorem exportFrom_succ_unavailable (sink : Nat → SendOutcome) (i fuel : Nat)
    (hs : sink i = SendOutcome.unavailable) :
    exportFrom sink i (fuel + 1) =
      if fuel = 0 then
        [ExportEvent.attempt i SendOutcome.unavailable,
          ExportEvent.reportFailed SendOutcome.unavailable]
      else ExportEvent.attempt i SendOutcome.unavailable ::
        exportFrom sink (i + 1) fuel := by
  simp [exportFrom, hs]

/-- Unfolding of the retry loop when the sink times out. -/
theorem exportFrom_succ_timedOut (sink : Nat → SendOutcome) (i fuel : Nat)
    (hs : sink i = SendOutcome.timedOut) :
    exportFrom sink i (fuel + 1) =
      if fuel = 0 then
        [ExportEvent.attempt i SendOutcome.timedOut,
          ExportEvent.reportFailed SendOutcome.timedOut]
      else ExportEvent.attempt i SendOutcome.timedOut ::
        exportFrom sink (i + 1) fuel := by
  simp [exportFrom, hs]

/-- Counting send attempts distributes over cons. -/
theorem attemptCount_cons (e : ExportEvent) (es : List ExportEvent) :
    attemptCount (e :: es) =
      (if isAttempt e then 1 else 0) + attemptCount es := by
  by_cases h : isAttempt e <;> simp [attemptCount, List.filter_cons, h] <;> omega

/-- Counting failure reports distributes over cons. -/
theorem failReportCount_cons (e : ExportEvent) (es : List ExportEvent) :
    failReportCount (e :: es) =
      (if isFailReport e then 1 else 0) + failReportCount es := by
  by_cases h : isFailReport e <;>
    simp [failReportCount, List.filter_cons, h] <;> omega

/-- Counting delivery reports distributes over cons. -/
theorem deliveredReportCount_cons (e : ExportEvent) (es : List ExportEvent) :
    deliveredReportCount (e :: es) =
      (if isDeliveredReport e then 1 else 0) + deliveredReportCount es := by
  by_cases h : isDeliveredReport e <;>
    simp [deliveredReportCount, List.filter_cons, h] <;> omega

/-- The retry loop makes at most as many send attempts as it has fuel. -/
theorem exportFrom_attempt_bound (sink : Nat → SendOutcome) :
    ∀ (fuel i : Nat), attemptCount (exportFrom sink i fuel) ≤ fuel := by
  intro fuel
  induction fuel with
  | zero =>
      intro i
      simp [exportFrom, attemptCount]
  | succ fuel ih =>
      intro i
      cases hsink : sink i with
      | success =>
          rw [exportFrom_succ_success sink i fuel hsink]
          simp [attemptCount, isAttempt, List.filter]
      | rejected =>
          rw [exportFrom_succ_rejected sink i fuel hsink]
          simp [attemptCount, isAttempt, List.filter]
      | unavailable =>
          rw [exportFrom_succ_unavailable sink i fuel hsink]
          by_cases hf : fuel = 0
          · rw [if_pos hf]
            simp [attemptCount, isAttempt, List.filter]
          · rw [if_neg hf, attemptCount_cons]
            have := ih (i + 1)
            simp only [isAttempt, if_pos]
            omega
      | timedOut =>
          rw [exportFrom_succ_timedOut sink i fuel hsink]
          by_cases hf : fuel = 0
          · rw [if_pos hf]
            simp [attemptCount, isAttempt, List.filter]
          · rw [if_neg hf, attemptCount_cons]
            have := ih (i + 1)
            simp only [isAttempt, if_pos]
            omega

/-- Decomposition of a two-element list as `l1 ++ x :: l2`. -/
theorem pair_eq_append_cons {α : Type} (p q x : α) (l1 l2 : List α)
    (h : [p, q] = l1 ++ x :: l2) :
    (l1 = [] ∧ x = p ∧ l2 = [q]) ∨ (l1 = [p] ∧ x = q ∧ l2 = []) := by
  cases l1 with
  | nil =>
      rw [List.nil_append] at h
      injection h with h1 h2
      exact Or.inl ⟨rfl, h1.symm, h2.symm⟩
  | cons a l1 =>
      rw [List.cons_append] at h
      injection h with h1 h2
      cases l1 with
      | nil =>
          rw [List.nil_append] at h2
          injection h2 with h3 h4
          exact Or.inr ⟨by rw [h1], h3.symm, h4.symm⟩
      | cons b l1 =>
          rw [List.cons_append] at h2
          injection h2 with h3 h4
          exact absurd h4.symm (by simp)

/-- A `Rejected` outcome ends the export at once: nothing follows the
rejected attempt but the single permanent-failure report — the Exporter
never retries a rejection and never re-queues the batch. -/
theorem exportFrom_rejected_ends (sink : Nat → SendOutcome) :
    ∀ (fuel i : Nat) (l1 l2 : List ExportEvent) (j : Nat),
      exportFrom sink i fuel =
        l1 ++ ExportEvent.attempt j SendOutcome.rejected :: l2 →
      l2 = [ExportEvent.reportFailed SendOutcome.rejected] := by
  intro fuel
  induction fuel with
  | zero =>
      intro i l1 l2 j h
      simp [exportFrom] at h
  | succ fuel ih =>
      intro i l1 l2 j h
      cases hsink : sink i with
      | success =>
          rw [exportFrom_succ_success sink i fuel hsink] at h
          rcases pair_eq_append_cons _ _ _ _ _ h with ⟨-, hx, -⟩ | ⟨-, hx, -⟩ <;>
            exact absurd hx (by simp)
      | rejected =>
          rw [exportFrom_succ_rejected sink i fuel hsink] at h
          rcases pair_eq_append_cons _ _ _ _ _ h with ⟨-, -, hl2⟩ | ⟨-, hx, -⟩
          · exact hl2
          · exact absurd hx (by simp)
      | unavailable =>
          rw [exportFrom_succ_unavailable sink i fuel hsink] at h
          by_cases hf : fuel = 0
          · rw [if_pos hf] at h
            rcases pair_eq_append_cons _ _ _ _ _ h with ⟨-, hx, -⟩ | ⟨-, hx, -⟩ <;>
              exact absurd hx (by simp)
          · rw [if_neg hf] at h
            cases l1 with
            | nil =>
                rw [List.nil_append] at h
                injection h with h1 h2
                exact absurd h1 (by simp)
            | cons a l1 =>
                rw [List.cons_append] at h
                injection h with h1 h2
                exact ih (i + 1) l1 l2 j h2
      | timedOut =>
          rw [exportFrom_succ_timedOut sink i fuel hsink] at h
          by_cases hf : fuel = 0
          · rw [if_pos hf] at h
            rcases pair_eq_append_cons _ _ _ _ _ h with ⟨-, hx, -⟩ | ⟨-, hx, -⟩ <;>
              exact absurd hx (by simp)
          · rw [if_neg hf] at h
            cases l1 with
            | nil =>
                rw [List.nil_append] at h
                injection h with h1 h2
                exact absurd h1 (by simp)
            | cons a l1 =>
                rw [List.cons_append] at h
                injection h with h1 h2
                exact ih (i + 1) l1 l2 j h2

/-- Every export with at least one allowed attempt ends in exactly one
terminal report: delivered, or permanently failed. -/
theorem exportFrom_one_report (sink : Nat → SendOutcome) :
    ∀ (fuel i : Nat), 1 ≤ fuel →
      failReportCount (exportFrom sink i fuel) +
        deliveredReportCount (exportFrom sink i fuel) = 1 := by
  intro fuel
  induction fuel with
  | zero => intro i h; omega
  | succ fuel ih =>
      intro i _
      cases hsink : sink i with
      | success =>
          rw [exportFrom_succ_success sink i fuel hsink]
          simp [failReportCount, deliveredReportCount, isFailReport,
            isDeliveredReport, List.filter]
      | rejected =>
          rw [exportFrom_succ_rejected sink i fuel hsink]
          simp [failReportCount, deliveredReportCount, isFailReport,
            isDeliveredReport, List.filter]
      | unavailable =>
          rw [exportFrom_succ_unavailable sink i fuel hsink]
          by_cases hf : fuel = 0
          · rw [if_pos hf]
            simp [failReportCount, deliveredReportCount, isFailReport,
              isDeliveredReport, List.filter]
          · rw [if_neg hf, failReportCount_cons, deliveredReportCount_cons]
            have := ih (i + 1) (by omega)
            simp [isFailReport, isDeliveredReport]
            omega
      | timedOut =>
          rw [exportFrom_succ_timedOut sink i fuel hsink]
          by_cases hf : fuel = 0
          · rw [if_pos hf]
            simp [failReportCount, deliveredReportCount, isFailReport,
              isDeliveredReport, List.filter]
          · rw [if_neg hf, failReportCount_cons, deliveredReportCount_cons]
            have := ih (i + 1) (by omega)
            simp [isFailReport, isDeliveredReport]
            omega

/-- If the sink never succeeds, no delivery report is ever emitted. -/
theorem exportFrom_no_success (sink : Nat → SendOutcome)
    (hs : ∀ i, sink i ≠ SendOutcome.success) :
    ∀ (fuel i : Nat), deliveredReportCount (exportFrom sink i fuel) = 0 := by
  intro fuel
  induction fuel with
  | zero => intro i; simp [exportFrom, deliveredReportCount]
  | succ fuel ih =>
      intro i
      cases hsink : sink i with
      | success => exact absurd hsink (hs i)
      | rejected =>
          rw [exportFrom_succ_rejected sink i fuel hsink]
          simp [deliveredReportCount, isDeliveredReport, List.filter]
      | unavailable =>
          rw [exportFrom_succ_unavailable sink i fuel hsink]
          by_cases hf : fuel = 0
          · rw [if_pos hf]
            simp [deliveredReportCount, isDeliveredReport, List.filter]
          · rw [if_neg hf, deliveredReportCount_cons]
            have := ih (i + 1)
            simp [isDeliveredReport]
            omega
      | timedOut =>
          rw [exportFrom_succ_timedOut sink i fuel hsink]
          by_cases hf : fuel = 0
          · rw [if_pos hf]
            simp [deliveredReportCount, isDeliveredReport, List.filter]
          · rw [if_neg hf, deliveredReportCount_cons]
            have := ih (i + 1)
            simp [isDeliveredReport]
            omega

end Pipeline

/-- C2: in every reachable Batcher state every batch — open or sealed —
holds at most the configured maximum number of records; after an age check
at time `t` no record older than the maximum age is still sitting in the
open batch; and in the scenario with batch max size 3 and max age 1000ms,
ingesting 2 records and ticking at 1100ms seals a batch of exactly those
2 records. -/
theorem batch_size_and_age_bounds :
    ∀ (cfg : Pipeline.BatcherConfig) (k : Pipeline.TelemetryKind)
      (es : List Pipeline.BatchEvent),
      1 ≤ cfg.maxSize →
      ((Pipeline.batcherRun cfg (Pipeline.BatcherState.init k) es).1.cur.recs.length
          < cfg.maxSize ∧
        ∀ b ∈ (Pipeline.batcherRun cfg (Pipeline.BatcherState.init k) es).2,
          b.recs.length ≤ cfg.maxSize) ∧
      (∀ (s : Pipeline.BatcherState) (t t0 : Nat),
        (Pipeline.batcherStep cfg s (Pipeline.BatchEvent.tick t)).1.curOldest
            = some t0 → t - t0 ≤ cfg.maxAge) ∧
      ((Pipeline.batcherRun ⟨3, 1000⟩
            (Pipeline.BatcherState.init Pipeline.TelemetryKind.metric)
            [Pipeline.BatchEvent.add 0 (Pipeline.mkMetric 1),
             Pipeline.BatchEvent.add 100 (Pipeline.mkMetric 2),
             Pipeline.BatchEvent.tick 1100]).2.map Pipeline.Batch.recs
        = [[Pipeline.mkMetric 1, Pipeline.mkMetric 2]]) := by
  intro cfg k es h1
  refine ⟨Pipeline.batcherRun_size_inv cfg h1 es _ ?_, ?_, by decide⟩
  · simp [Pipeline.BatcherState.init, Pipeline.Batch.new]
    omega
  · intro s t t0 h
    cases h0 : s.curOldest with
    | none =>
        simp only [Pipeline.batcherStep, h0] at h
        simp [h0] at h
    | some t1 =>
        simp only [Pipeline.batcherStep, h0] at h
        by_cases hage : cfg.maxAge < t - t1
        · rw [if_pos hage] at h
          simp [Pipeline.sealCur] at h
        · rw [if_neg hage] at h
          simp only [h0] at h
          injection h with h
          omega

/-- Witness for C2: the size/age scenario at batch max size 3 and max age
1000ms. -/
theorem batch_size_and_age_bounds_witness :
    (1:Nat) ≤ 3 ∧
    ((Pipeline.batcherRun ⟨3, 1000⟩
          (Pipeline.BatcherState.init Pipeline.TelemetryKind.metric)
          [Pipeline.BatchEvent.add 0 (Pipeline.mkMetric 1),
           Pipeline.BatchEvent.add 100 (Pipeline.mkMetric 2),
           Pipeline.BatchEvent.tick 1100]).2.map Pipeline.Batch.recs
      = [[Pipeline.mkMetric 1, Pipeline.mkMetric 2]]) :=
  ⟨by decide,
    (batch_size_and_age_bounds ⟨3, 1000⟩ Pipeline.TelemetryKind.metric
      [Pipeline.BatchEvent.add 0 (Pipeline.mkMetric 1),
       Pipeline.BatchEvent.add 100 (Pipeline.mkMetric 2),
       Pipeline.BatchEvent.tick 1100] (by decide)).2.2⟩

/-- C3: the Batcher seals and hands off the current open batch exactly
when one of the two flush triggers occurs — a record arrival flushes iff
the count reaches the configured maximum, an age check flushes iff the
oldest open record has aged past the configured maximum — and what is
handed off is exactly the current open batch (with the arriving record
appended, in the size-trigger case); no other condition flushes during
normal operation. -/
theorem batcher_flush_exactly_on_triggers :
    ∀ (cfg : Pipeline.BatcherConfig) (s : Pipeline.BatcherState)
      (t : Nat) (r : Pipeline.TelemetryRecord),
      ((Pipeline.batcherStep cfg s (Pipeline.BatchEvent.add t r)).2 ≠ [] ↔
        cfg.maxSize ≤ s.cur.recs.length + 1) ∧
      ((Pipeline.batcherStep cfg s (Pipeline.BatchEvent.tick t)).2 ≠ [] ↔
        ∃ t0, s.curOldest = some t0 ∧ cfg.maxAge < t - t0) ∧
      (cfg.maxSize ≤ s.cur.recs.length + 1 →
        (Pipeline.batcherStep cfg s (Pipeline.BatchEvent.add t r)).2 =
          [{ s.cur with recs := s.cur.recs ++ [r] }]) ∧
      (∀ t0, s.curOldest = some t0 → cfg.maxAge < t - t0 →
        (Pipeline.batcherStep cfg s (Pipeline.BatchEvent.tick t)).2 = [s.cur]) := by
  intro cfg s t r
  refine ⟨?_, ?_, ?_, ?_⟩
  · simp only [Pipeline.batcherStep]
    by_cases hc : cfg.maxSize ≤ s.cur.recs.length + 1
    · rw [if_pos (by simpa using hc)]
      simpa [Pipeline.sealCur] using hc
    · rw [if_neg (by simpa using hc)]
      simpa using hc
  · cases h0 : s.curOldest with
    | none => simp [Pipeline.batcherStep, h0]
    | some t1 =>
        simp only [Pipeline.batcherStep, h0]
        by_cases hage : cfg.maxAge < t - t1
        · rw [if_pos hage]
          simp [Pipeline.sealCur, hage]
        · rw [if_neg hage]
          simp [hage]
  · intro hc
    simp only [Pipeline.batcherStep]
    rw [if_pos (by simpa using hc)]
    simp [Pipeline.sealCur]
  · intro t0 h0 hage
    simp only [Pipeline.batcherStep, h0]
    rw [if_pos hage]
    simp [Pipeline.sealCur]

/-- Witness for C3: with batch max size 1 the first arriving record seals
the batch, and with max age 5ms an age check at 10ms seals a batch whose
oldest record arrived at time 0. -/
theorem batcher_flush_exactly_on_triggers_witness :
    (Pipeline.batcherStep ⟨1, 5⟩
        (Pipeline.BatcherState.init Pipeline.TelemetryKind.metric)
        (Pipeline.BatchEvent.add 0 (Pipeline.mkMetric 0))).2 =
      [{ (Pipeline.BatcherState.init Pipeline.TelemetryKind.metric).cur with
          recs := (Pipeline.BatcherState.init
            Pipeline.TelemetryKind.metric).cur.recs ++ [Pipeline.mkMetric 0] }] ∧
    (Pipeline.batcherStep ⟨9, 5⟩
        ⟨Pipeline.TelemetryKind.metric,
          ⟨0, Pipeline.TelemetryKind.metric, [Pipeline.mkMetric 0]⟩, some 0, 1⟩
        (Pipeline.BatchEvent.tick 10)).2 =
      [⟨0, Pipeline.TelemetryKind.metric, [Pipeline.mkMetric 0]⟩] :=
  ⟨(batcher_flush_exactly_on_triggers ⟨1, 5⟩
      (Pipeline.BatcherState.init Pipeline.TelemetryKind.metric) 0
      (Pipeline.mkMetric 0)).2.2.1 (by decide),
    (batcher_flush_exactly_on_triggers ⟨9, 5⟩
      ⟨Pipeline.TelemetryKind.metric,
        ⟨0, Pipeline.TelemetryKind.metric, [Pipeline.mkMetric 0]⟩, some 0, 1⟩
      10 (Pipeline.mkMetric 0)).2.2.2 0 rfl (by decide)⟩

/-- C7: at shutdown the Batcher seals and hands off the open partial batch
(rather than discarding it), and a drain-then-shutdown run delivers every
record of the open batch and every record still queued at shutdown time
into some sealed batch. -/
theorem shutdown_flushes_and_drains :
    ∀ (cfg : Pipeline.BatcherConfig) (s : Pipeline.BatcherState),
      (s.cur.recs ≠ [] →
        (Pipeline.batcherStep cfg s Pipeline.BatchEvent.shutdown).2 = [s.cur]) ∧
      ∀ (queued : List Pipeline.TelemetryRecord) (t : Nat)
        (r : Pipeline.TelemetryRecord),
        r ∈ s.cur.recs ++ queued →
        ∃ b ∈ (Pipeline.batcherRun cfg s
            (queued.map (Pipeline.BatchEvent.add t) ++
              [Pipeline.BatchEvent.shutdown])).2, r ∈ b.recs := by
  intro cfg s
  constructor
  · intro hne
    simp only [Pipeline.batcherStep]
    rw [if_neg (by simpa using hne)]
    rfl
  · intro queued t r hr
    have hcons := Pipeline.batcherRun_conservation cfg
      (queued.map (Pipeline.BatchEvent.add t) ++ [Pipeline.BatchEvent.shutdown]) s
    have hadded : Pipeline.addedRecords
        (queued.map (Pipeline.BatchEvent.add t) ++ [Pipeline.BatchEvent.shutdown])
        = queued := by
      rw [Pipeline.addedRecords_append, Pipeline.addedRecords_map_add]
      simp [Pipeline.addedRecords]
    have hfinal : (Pipeline.batcherRun cfg s
        (queued.map (Pipeline.BatchEvent.add t) ++
          [Pipeline.BatchEvent.shutdown])).1.cur.recs = [] := by
      rw [Pipeline.batcherRun_append]
      simp only [Pipeline.batcherRun_cons, Pipeline.batcherRun_nil]
      exact Pipeline.batcherStep_shutdown_cur cfg _
    rw [hadded, hfinal, List.append_nil] at hcons
    have hmem : r ∈ ((Pipeline.batcherRun cfg s
        (queued.map (Pipeline.BatchEvent.add t) ++
          [Pipeline.BatchEvent.shutdown])).2.map Pipeline.Batch.recs).flatten := by
      rw [hcons]
      exact hr
    obtain ⟨l, hl, hrl⟩ := List.mem_flatten.mp hmem
    obtain ⟨b, hb, rfl⟩ := List.mem_map.mp hl
    exact ⟨b, hb, hrl⟩

/-- Witness for C7: a batch open at shutdown time with one record, and one
further queued record, both end up in sealed batches. -/
theorem shutdown_flushes_and_drains_witness :
    (Pipeline.batcherStep ⟨3, 5⟩
        ⟨Pipeline.TelemetryKind.metric,
          ⟨0, Pipeline.TelemetryKind.metric, [Pipeline.mkMetric 0]⟩, some 0, 1⟩
        Pipeline.BatchEvent.shutdown).2 =
      [⟨0, Pipeline.TelemetryKind.metric, [Pipeline.mkMetric 0]⟩] ∧
    ∃ b ∈ (Pipeline.batcherRun ⟨3, 5⟩
        ⟨Pipeline.TelemetryKind.metric,
          ⟨0, Pipeline.TelemetryKind.metric, [Pipeline.mkMetric 0]⟩, some 0, 1⟩
        ([Pipeline.mkMetric 1].map (Pipeline.BatchEvent.add 2) ++
          [Pipeline.BatchEvent.shutdown])).2, Pipeline.mkMetric 0 ∈ b.recs :=
  ⟨(shutdown_flushes_and_drains ⟨3, 5⟩
      ⟨Pipeline.TelemetryKind.metric,
        ⟨0, Pipeline.TelemetryKind.metric, [Pipeline.mkMetric 0]⟩, some 0, 1⟩).1
      (by decide),
    (shutdown_flushes_and_drains ⟨3, 5⟩
      ⟨Pipeline.TelemetryKind.metric,
        ⟨0, Pipeline.TelemetryKind.metric, [Pipeline.mkMetric 0]⟩, some 0, 1⟩).2
      [Pipeline.mkMetric 1] 2 (Pipeline.mkMetric 0) (by decide)⟩

/-- C9: every request to `GET /health` receives the body
`{"status": "ok", "service": "node-api"}`, independently of the request's
content and of any server state (the handler is a constant pure function). -/
theorem health_handler_constant_ok :
    ∀ r : Server.Request,
      Server.healthHandler r = { status := "ok", service := "node-api" } ∧
      ∀ r' : Server.Request, Server.healthHandler r = Server.healthHandler r' := by
  intro r
  exact ⟨rfl, fun _ => rfl⟩

/-- C10: the `/api/hello` handler ends its span on every execution path;
on success the response body carries message `"Hello OTel!"`, the
timestamp, and the started span's trace identifier; if the handler body
throws, the exception is recorded on the span, the span status code is set
to 2, and the exception is re-thrown — with the span still ended. -/
theorem hello_handler_span_paths :
    ∀ (req : Server.Request) (tid now : String) (bodyError : Option String),
      (Server.helloHandler req tid now bodyError).2.ended = true ∧
      (bodyError = none →
        (Server.helloHandler req tid now bodyError).1 =
          Server.HelloOutcome.ok
            { message := "Hello OTel!", timestamp := now,
              responseTraceId := tid }) ∧
      (∀ err, bodyError = some err →
        (Server.helloHandler req tid now bodyError).1 =
          Server.HelloOutcome.thrown err ∧
        err ∈ (Server.helloHandler req tid now bodyError).2.exceptions ∧
        (Server.helloHandler req tid now bodyError).2.statusCode = some 2 ∧
        (Server.helloHandler req tid now bodyError).2.statusMessage = some err) := by
  intro req tid now bodyError
  cases bodyError with
  | none =>
      exact ⟨rfl, fun _ => rfl, fun err h => Option.noConfusion h⟩
  | some e =>
      refine ⟨rfl, ⟨fun h => Option.noConfusion h, fun err h => ?_⟩⟩
      injection h with h
      subst h
      exact ⟨rfl, by simp [Server.helloHandler, Server.startSpan], rfl, rfl⟩

/-- C5: when the Receiver's queue is full, an ingestion call blocks for the
configured timeout and then fails with an overload error; an accepted call
appends the record to the queue (accepted input is never dropped); and in
the scenario with queue capacity 10 and no consumer, ingesting 15 records
accepts the first 10 and fails calls 11-15 with OverloadError after the
timeout. -/
theorem receiver_backpressure_overload :
    ∀ (cfg : Pipeline.ReceiverConfig) (s : Pipeline.ReceiverState)
      (r : Pipeline.TelemetryRecord),
      (cfg.queueCapacity ≤ (Pipeline.queueOf s r.kind).length →
        Pipeline.ingestRecordNoConsumer cfg s r =
          (s, some (cfg.blockTimeout, Pipeline.PipelineError.overloadError))) ∧
      (∀ s', Pipeline.ingestRecordNoConsumer cfg s r = (s', none) →
        Pipeline.queueOf s' r.kind = Pipeline.queueOf s r.kind ++ [r]) ∧
      (Pipeline.ingestSeq ⟨10, 5000⟩ ⟨[], []⟩
          ((List.range 15).map Pipeline.mkMetric)).2 =
        (List.range 10).map (fun _ => none) ++
          (List.range 5).map
            (fun _ => some (5000, Pipeline.PipelineError.overloadError)) := by
  intro cfg s r
  refine ⟨?_, ?_, by decide⟩
  · intro hfull
    unfold Pipeline.ingestRecordNoConsumer
    rw [if_neg (by omega)]
  · intro s' h
    unfold Pipeline.ingestRecordNoConsumer at h
    by_cases hlt : (Pipeline.queueOf s r.kind).length < cfg.queueCapacity
    · rw [if_pos hlt] at h
      obtain ⟨rfl, -⟩ := Prod.mk.injEq .. ▸ h
      cases r with
      | spanRec sp =>
          simp [Pipeline.pushRecord, Pipeline.TelemetryRecord.kind,
            Pipeline.queueOf]
      | metricRec m =>
          simp [Pipeline.pushRecord, Pipeline.TelemetryRecord.kind,
            Pipeline.queueOf]
    · rw [if_neg hlt] at h
      exact absurd (congrArg Prod.snd h) (by simp)

/-- Witness for C5: at queue capacity 0 the very first call is refused with
an overload error after the configured blocking time, and with capacity 1
an accepted call leaves its record in the queue. -/
theorem receiver_backpressure_overload_witness :
    Pipeline.ingestRecordNoConsumer ⟨0, 7⟩ ⟨[], []⟩ (Pipeline.mkMetric 0) =
      (⟨[], []⟩, some (7, Pipeline.PipelineError.overloadError)) ∧
    Pipeline.queueOf
        (Pipeline.pushRecord ⟨[], []⟩ (Pipeline.mkMetric 0))
        (Pipeline.mkMetric 0).kind = [] ++ [Pipeline.mkMetric 0] :=
  ⟨(receiver_backpressure_overload ⟨0, 7⟩ ⟨[], []⟩ (Pipeline.mkMetric 0)).1
      (by decide),
    (receiver_backpressure_overload ⟨1, 7⟩ ⟨[], []⟩ (Pipeline.mkMetric 0)).2.1
      (Pipeline.pushRecord ⟨[], []⟩ (Pipeline.mkMetric 0)) (by decide)⟩

/-- C6: a malformed payload submitted to the Receiver's ingestion endpoint
is answered with a decode error, the Receiver's state (hence every
internal queue, hence everything downstream) is unchanged, and a decode
error is never retried internally. -/
theorem receiver_rejects_malformed :
    ∀ (cfg : Pipeline.ReceiverConfig) (s : Pipeline.ReceiverState)
      (raw : String),
      Pipeline.ingestPayload cfg s (Pipeline.Encoded.malformed raw) =
        (s, some Pipeline.PipelineError.decodeError) ∧
      Pipeline.retriedInternally Pipeline.PipelineError.decodeError = false :=
  fun _ _ _ => ⟨rfl, rfl⟩

/-- Witness for C10 at a concrete request, on both the success and the
throwing path. -/
theorem hello_handler_span_paths_witness :
    ((Server.helloHandler ⟨"GET", "/api/hello"⟩ "t1" "2024" none).2.ended = true ∧
      (Server.helloHandler ⟨"GET", "/api/hello"⟩ "t1" "2024" none).1 =
        Server.HelloOutcome.ok
          { message := "Hello OTel!", timestamp := "2024",
            responseTraceId := "t1" }) ∧
    ((Server.helloHandler ⟨"GET", "/api/hello"⟩ "t1" "2024" (some "boom")).2.ended = true ∧
      (Server.helloHandler ⟨"GET", "/api/hello"⟩ "t1" "2024" (some "boom")).1 =
        Server.HelloOutcome.thrown "boom") := by
  refine ⟨⟨(hello_handler_span_paths ⟨"GET", "/api/hello"⟩ "t1" "2024" none).1,
      (hello_handler_span_paths ⟨"GET", "/api/hello"⟩ "t1" "2024" none).2.1 rfl⟩,
    ⟨(hello_handler_span_paths ⟨"GET", "/api/hello"⟩ "t1" "2024" (some "boom")).1,
      ((hello_handler_span_paths ⟨"GET", "/api/hello"⟩ "t1" "2024"
        (some "boom")).2.2 "boom" rfl).1⟩⟩

namespace Pipeline

/-- One Batcher step never changes the batcher's kind, keeps the open
batch of that kind, and only emits batches of that kind. -/
theorem batcherStep_kind (cfg : BatcherConfig) (s : BatcherState)
    (e : BatchEvent) (h : s.cur.kind = s.kind) :
    (batcherStep cfg s e).1.kind = s.kind ∧
      (batcherStep cfg s e).1.cur.kind = s.kind ∧
      ∀ b ∈ (batcherStep cfg s e).2, b.kind = s.kind := by
  cases e with
  | add t r =>
      simp only [batcherStep]
      split
      · refine ⟨rfl, by simp [sealCur, Batch.new], ?_⟩
        intro b hb
        simp [sealCur] at hb
        subst hb
        exact h
      · exact ⟨rfl, h, by simp⟩
  | tick t =>
      cases h0 : s.curOldest with
      | none =>
          simp only [batcherStep, h0]
          exact ⟨trivial, h, fun b hb => absurd hb (List.not_mem_nil b)⟩
      | some t0 =>
          simp only [batcherStep, h0]
          split
          · refine ⟨rfl, by simp [sealCur, Batch.new], ?_⟩
            intro b hb
            simp [sealCur] at hb
            subst hb
            exact h
          · exact ⟨rfl, h, by simp⟩
  | shutdown =>
      simp only [batcherStep]
      split
      · exact ⟨rfl, h, by simp⟩
      · refine ⟨rfl, by simp [sealCur, Batch.new], ?_⟩
        intro b hb
        simp [sealCur] at hb
        subst hb
        exact h

/-- Over a whole run, every sealed batch carries the batcher's kind. -/
theorem batcherRun_kind (cfg : BatcherConfig) (es : List BatchEvent) :
    ∀ s : BatcherState, s.cur.kind = s.kind →
      (batcherRun cfg s es).1.kind = s.kind ∧
        (batcherRun cfg s es).1.cur.kind = s.kind ∧
        ∀ b ∈ (batcherRun cfg s es).2, b.kind = s.kind := by
  induction es with
  | nil =>
      intro s h
      exact ⟨rfl, h, by simp [batcherRun_nil]⟩
  | cons e es ih =>
      intro s h
      obtain ⟨hk1, hk2, hk3⟩ := batcherStep_kind cfg s e h
      obtain ⟨hr1, hr2, hr3⟩ := ih (batcherStep cfg s e).1 (hk2.trans hk1.symm)
      rw [batcherRun_cons]
      refine ⟨hr1.trans hk1, hr2.trans hk1, ?_⟩
      intro b hb
      rcases List.mem_append.mp hb with hb | hb
      · exact hk3 b hb
      · exact (hr3 b hb).trans hk1

/-- Adding a list of indexed records adds exactly their record parts. -/
theorem addedRecords_map_add_pairs (ps : List (Nat × TelemetryRecord)) :
    addedRecords (ps.map (fun p => BatchEvent.add p.1 p.2)) =
      ps.map Prod.snd := by
  induction ps with
  | nil => simp [addedRecords]
  | cons p ps ih => simp [addedRecords, ih]

/-- The completed-run event sequence of a kind adds exactly that kind's
accepted records. -/
theorem addedRecords_batchEventsOf (k : TelemetryKind)
    (inputs : List Encoded) :
    addedRecords (batchEventsOf k inputs) = recordsOfKind k inputs := by
  rw [batchEventsOf, addedRecords_append, addedRecords_map_add_pairs,
    List.enum_map_snd]
  simp [addedRecords]

/-- After a completed run (ending in shutdown) the open batch is empty. -/
theorem batcherRun_shutdown_final (cfg : BatcherConfig)
    (es : List BatchEvent) (s : BatcherState) :
    (batcherRun cfg s (es ++ [BatchEvent.shutdown])).1.cur.recs = [] := by
  rw [batcherRun_append]
  simp only [batcherRun_cons, batcherRun_nil]
  exact batcherStep_shutdown_cur cfg _

/-- The sealed batches of a completed pipeline run of kind `k` hold, taken
together, exactly the accepted records of kind `k`. -/
theorem pipelineBatches_recs (cfg : PipelineConfig) (inputs : List Encoded)
    (k : TelemetryKind) :
    ((pipelineBatches cfg inputs k).map Batch.recs).flatten =
      recordsOfKind k inputs := by
  have hcons := batcherRun_conservation cfg.batcherCfg (batchEventsOf k inputs)
    (BatcherState.init k)
  rw [addedRecords_batchEventsOf] at hcons
  have hfinal : (batcherRun cfg.batcherCfg (BatcherState.init k)
      (batchEventsOf k inputs)).1.cur.recs = [] :=
    batcherRun_shutdown_final cfg.batcherCfg _ _
  rw [hfinal, List.append_nil] at hcons
  simpa [pipelineBatches, BatcherState.init, Batch.new] using hcons

/-- Every sealed batch of the kind-`k` run carries kind `k`. -/
theorem pipelineBatches_kind (cfg : PipelineConfig) (inputs : List Encoded)
    (k : TelemetryKind) :
    ∀ b ∈ pipelineBatches cfg inputs k, b.kind = k :=
  (batcherRun_kind cfg.batcherCfg (batchEventsOf k inputs)
    (BatcherState.init k) rfl).2.2

/-- One Batcher step keeps `cur.bid + 1 = nextBid`, never decreases the
open batch's id, and emits only the previously open batch's id, strictly
below the new open batch's id. -/
theorem batcherStep_bid (cfg : BatcherConfig) (s : BatcherState)
    (e : BatchEvent) (h : s.cur.bid + 1 = s.nextBid) :
    (batcherStep cfg s e).1.cur.bid + 1 = (batcherStep cfg s e).1.nextBid ∧
      s.cur.bid ≤ (batcherStep cfg s e).1.cur.bid ∧
      ∀ b ∈ (batcherStep cfg s e).2,
        b.bid = s.cur.bid ∧ s.cur.bid < (batcherStep cfg s e).1.cur.bid := by
  cases e with
  | add t r =>
      simp only [batcherStep]
      split
      · refine ⟨by simp [sealCur, Batch.new], by simp [sealCur, Batch.new]; omega, ?_⟩
        intro b hb
        simp [sealCur] at hb
        subst hb
        simp [sealCur, Batch.new]
        omega
      · exact ⟨h, le_refl _, by simp⟩
  | tick t =>
      cases h0 : s.curOldest with
      | none =>
          simp only [batcherStep, h0]
          exact ⟨h, le_refl _, by simp⟩
      | some t0 =>
          simp only [batcherStep, h0]
          split
          · refine ⟨by simp [sealCur, Batch.new], by simp [sealCur, Batch.new]; omega, ?_⟩
            intro b hb
            simp [sealCur] at hb
            subst hb
            simp [sealCur, Batch.new]
            omega
          · exact ⟨h, le_refl _, by simp⟩
  | shutdown =>
      simp only [batcherStep]
      split
      · exact ⟨h, le_refl _, by simp⟩
      · refine ⟨by simp [sealCur, Batch.new], by simp [sealCur, Batch.new]; omega, ?_⟩
        intro b hb
        simp [sealCur] at hb
        subst hb
        simp [sealCur, Batch.new]
        omega

/-- Over a whole run, the sealed batches carry strictly increasing batch
ids (so each sealed batch is handed off exactly once). -/
theorem batcherRun_bid (cfg : BatcherConfig) (es : List BatchEvent) :
    ∀ s : BatcherState, s.cur.bid + 1 = s.nextBid →
      (batcherRun cfg s es).1.cur.bid + 1 = (batcherRun cfg s es).1.nextBid ∧
        s.cur.bid ≤ (batcherRun cfg s es).1.cur.bid ∧
        (∀ b ∈ (batcherRun cfg s es).2,
          s.cur.bid ≤ b.bid ∧ b.bid < (batcherRun cfg s es).1.cur.bid) ∧
        ((batcherRun cfg s es).2.map Batch.bid).Pairwise (· < ·) := by
  induction es with
  | nil =>
      intro s h
      exact ⟨h, le_refl _, by simp [batcherRun_nil], by simp [batcherRun_nil]⟩
  | cons e es ih =>
      intro s h
      obtain ⟨hs1, hs2, hs3⟩ := batcherStep_bid cfg s e h
      obtain ⟨hr1, hr2, hr3, hr4⟩ := ih (batcherStep cfg s e).1 hs1
      rw [batcherRun_cons]
      refine ⟨hr1, le_trans hs2 hr2, ?_, ?_⟩
      · intro b hb
        rcases List.mem_append.mp hb with hb | hb
        · obtain ⟨hbid, hlt⟩ := hs3 b hb
          refine ⟨le_of_eq hbid.symm, ?_⟩
          rw [hbid]
          exact lt_of_lt_of_le hlt hr2
        · obtain ⟨hge, hlt⟩ := hr3 b hb
          exact ⟨le_trans hs2 hge, hlt⟩
      · rw [List.map_append, List.pairwise_append]
        refine ⟨?_, hr4, ?_⟩
        · cases e with
          | add t r =>
              revert hs3
              simp only [batcherStep]
              split
              · intro hs3
                simp [sealCur]
              · intro hs3
                simp
          | tick t =>
              revert hs3
              cases h0 : s.curOldest with
              | none => intro hs3; simp [batcherStep, h0]
              | some t0 =>
                  simp only [batcherStep, h0]
                  split
                  · intro hs3
                    simp [sealCur]
                  · intro hs3
                    simp
          | shutdown =>
              revert hs3
              simp only [batcherStep]
              split
              · intro hs3
                simp
              · intro hs3
                simp [sealCur]
        · intro x hx y hy
          obtain ⟨bx, hbx, rfl⟩ := List.mem_map.mp hx
          obtain ⟨by', hby, rfl⟩ := List.mem_map.mp hy
          obtain ⟨hbid, hlt⟩ := hs3 bx hbx
          obtain ⟨hge, -⟩ := hr3 by' hby
          omega

/-- The sealed batches of a completed pipeline run are pairwise distinct
(they carry strictly increasing batch ids). -/
theorem pipelineBatches_nodup (cfg : PipelineConfig) (inputs : List Encoded)
    (k : TelemetryKind) : (pipelineBatches cfg inputs k).Nodup := by
  have h := (batcherRun_bid cfg.batcherCfg (batchEventsOf k inputs)
    (BatcherState.init k) rfl).2.2.2
  exact List.Nodup.of_map Batch.bid (h.imp Nat.ne_of_lt)

end Pipeline

/-- C4: for every sealed batch and every sink behaviour, the Exporter
makes at most the configured maximum number of attempts; a `Rejected`
failure ends the export at once — it is never retried and nothing follows
but the single permanent-failure report, so the batch is never re-queued;
with at least one allowed attempt there is exactly one terminal report;
if the sink never succeeds the batch is reported permanently failed
exactly once; and the taxonomy classifies `Unavailable` and `Timeout` as
retryable and `Rejected` as not. -/
theorem exporter_bounded_retries :
    ∀ (cfg : Pipeline.RetryConfig) (sink : Nat → Pipeline.SendOutcome)
      (b : Pipeline.Batch),
      Pipeline.attemptCount (Pipeline.exportSealed cfg sink b).2 ≤
          cfg.maxAttempts ∧
      (∀ (l1 l2 : List Pipeline.ExportEvent) (j : Nat),
        (Pipeline.exportSealed cfg sink b).2 =
          l1 ++ Pipeline.ExportEvent.attempt j Pipeline.SendOutcome.rejected
            :: l2 →
        l2 = [Pipeline.ExportEvent.reportFailed Pipeline.SendOutcome.rejected]) ∧
      (1 ≤ cfg.maxAttempts →
        Pipeline.failReportCount (Pipeline.exportSealed cfg sink b).2 +
          Pipeline.deliveredReportCount (Pipeline.exportSealed cfg sink b).2
            = 1) ∧
      ((∀ i, sink i ≠ Pipeline.SendOutcome.success) → 1 ≤ cfg.maxAttempts →
        Pipeline.failReportCount (Pipeline.exportSealed cfg sink b).2 = 1) ∧
      Pipeline.retryableOutcome Pipeline.SendOutcome.unavailable = true ∧
      Pipeline.retryableOutcome Pipeline.SendOutcome.timedOut = true ∧
      Pipeline.retryableOutcome Pipeline.SendOutcome.rejected = false := by
  intro cfg sink b
  refine ⟨Pipeline.exportFrom_attempt_bound sink cfg.maxAttempts 1,
    fun l1 l2 j h =>
      Pipeline.exportFrom_rejected_ends sink cfg.maxAttempts 1 l1 l2 j h,
    fun h1 => Pipeline.exportFrom_one_report sink cfg.maxAttempts 1 h1,
    fun hs h1 => ?_, rfl, rfl, rfl⟩
  have hone := Pipeline.exportFrom_one_report sink cfg.maxAttempts 1 h1
  have hzero := Pipeline.exportFrom_no_success sink hs cfg.maxAttempts 1
  simp only [Pipeline.exportSealed]
  omega

/-- Witness for C4: a persistently unavailable sink at retry budget 3 is
attempted at most 3 times and the batch is reported permanently failed
exactly once; a sink that rejects at once is followed only by the single
failure report. -/
theorem exporter_bounded_retries_witness :
    Pipeline.attemptCount
        (Pipeline.exportSealed ⟨3, 1, 10⟩
          (fun _ => Pipeline.SendOutcome.unavailable)
          (Pipeline.Batch.new 0 Pipeline.TelemetryKind.trace)).2 ≤ 3 ∧
    Pipeline.failReportCount
        (Pipeline.exportSealed ⟨3, 1, 10⟩
          (fun _ => Pipeline.SendOutcome.unavailable)
          (Pipeline.Batch.new 0 Pipeline.TelemetryKind.trace)).2 = 1 ∧
    ([Pipeline.ExportEvent.reportFailed Pipeline.SendOutcome.rejected] =
      [Pipeline.ExportEvent.reportFailed Pipeline.SendOutcome.rejected]) :=
  ⟨(exporter_bounded_retries ⟨3, 1, 10⟩
      (fun _ => Pipeline.SendOutcome.unavailable)
      (Pipeline.Batch.new 0 Pipeline.TelemetryKind.trace)).1,
    (exporter_bounded_retries ⟨3, 1, 10⟩
      (fun _ => Pipeline.SendOutcome.unavailable)
      (Pipeline.Batch.new 0 Pipeline.TelemetryKind.trace)).2.2.2.1
      (fun _ h => Pipeline.SendOutcome.noConfusion h) (by decide),
    (exporter_bounded_retries ⟨1, 1, 10⟩
      (fun _ => Pipeline.SendOutcome.rejected)
      (Pipeline.Batch.new 0 Pipeline.TelemetryKind.trace)).2.1
      [] [Pipeline.ExportEvent.reportFailed Pipeline.SendOutcome.rejected] 1
      (by decide)⟩

/-- C1: over a completed pipeline run, every record the Receiver accepts
reaches every exporter bound to that record's telemetry kind at least
once: some sealed batch containing the record is delivered by the Router
to that exporter; no accepted record is silently dropped. -/
theorem pipeline_at_least_once_delivery :
    ∀ (cfg : Pipeline.PipelineConfig) (inputs : List Pipeline.Encoded)
      (r : Pipeline.TelemetryRecord),
      r ∈ Pipeline.acceptedRecords inputs →
      ∀ e ∈ cfg.bindings r.kind,
        ∃ b, (e, b) ∈ Pipeline.pipelineDeliveries cfg inputs ∧
          r ∈ b.recs := by
  intro cfg inputs r hr e he
  have hk : r ∈ Pipeline.recordsOfKind r.kind inputs :=
    List.mem_filter.mpr ⟨hr, by simp⟩
  have hflat : r ∈ ((Pipeline.pipelineBatches cfg inputs r.kind).map
      Pipeline.Batch.recs).flatten := by
    rw [Pipeline.pipelineBatches_recs]
    exact hk
  obtain ⟨l, hl, hrl⟩ := List.mem_flatten.mp hflat
  obtain ⟨b, hb, rfl⟩ := List.mem_map.mp hl
  have hbk : b.kind = r.kind := Pipeline.pipelineBatches_kind cfg inputs r.kind b hb
  have hroute : (e, b) ∈ Pipeline.route cfg b := by
    rw [Pipeline.route, hbk]
    exact List.mem_map_of_mem _ he
  have hdel : (e, b) ∈ ((Pipeline.pipelineBatches cfg inputs r.kind).map
      (Pipeline.route cfg)).flatten :=
    List.mem_flatten.mpr ⟨Pipeline.route cfg b, List.mem_map_of_mem _ hb, hroute⟩
  refine ⟨b, ?_, hrl⟩
  rw [Pipeline.pipelineDeliveries]
  cases hkind : r.kind with
  | trace =>
      rw [hkind] at hdel
      exact List.mem_append.mpr (Or.inl hdel)
  | metric =>
      rw [hkind] at hdel
      exact List.mem_append.mpr (Or.inr hdel)

/-- Witness for C1: one accepted metric record is delivered to the single
exporter bound to the metric kind. -/
theorem pipeline_at_least_once_delivery_witness :
    ∃ b, (7, b) ∈ Pipeline.pipelineDeliveries
        ⟨fun _ => [7], ⟨10, 5⟩, ⟨3, 1000⟩, ⟨3, 1, 10⟩⟩
        [Pipeline.Encoded.valid [Pipeline.mkMetric 0]] ∧
      Pipeline.mkMetric 0 ∈ b.recs :=
  pipeline_at_least_once_delivery
    ⟨fun _ => [7], ⟨10, 5⟩, ⟨3, 1000⟩, ⟨3, 1, 10⟩⟩
    [Pipeline.Encoded.valid [Pipeline.mkMetric 0]]
    (Pipeline.mkMetric 0) (by decide) 7 (by decide)

/-- C8: every Batch is created empty (a fresh batch holds no records, and
whenever the Batcher seals and hands off, the replacement open batch is a
freshly created empty one); a sealed batch is immutable downstream — the
Router's fan-out pairs carry it unchanged and the Exporter returns it
untouched; and over a completed pipeline run the Router consumes each
sealed batch exactly once. -/
theorem batch_lifecycle_once :
    ∀ (bid : Nat) (k : Pipeline.TelemetryKind)
      (cfgB : Pipeline.BatcherConfig) (s : Pipeline.BatcherState)
      (e : Pipeline.BatchEvent) (cfg : Pipeline.PipelineConfig)
      (b : Pipeline.Batch) (rcfg : Pipeline.RetryConfig)
      (sink : Nat → Pipeline.SendOutcome) (inputs : List Pipeline.Encoded),
      (Pipeline.Batch.new bid k).recs = [] ∧
      ((Pipeline.batcherStep cfgB s e).2 ≠ [] →
        (Pipeline.batcherStep cfgB s e).1.cur =
          Pipeline.Batch.new s.nextBid s.kind) ∧
      (∀ p ∈ Pipeline.route cfg b, p.2 = b) ∧
      (Pipeline.exportSealed rcfg sink b).1 = b ∧
      (b ∈ Pipeline.pipelineBatches cfg inputs k →
        (Pipeline.pipelineBatches cfg inputs k).count b = 1) := by
  intro bid k cfgB s e cfg b rcfg sink inputs
  refine ⟨rfl, ?_, ?_, rfl, ?_⟩
  · intro hne
    cases e with
    | add t r =>
        revert hne
        simp only [Pipeline.batcherStep]
        split
        · intro _
          simp [Pipeline.sealCur]
        · intro hne
          exact absurd rfl hne
    | tick t =>
        revert hne
        cases h0 : s.curOldest with
        | none =>
            simp only [Pipeline.batcherStep, h0]
            intro hne
            exact absurd rfl hne
        | some t0 =>
            simp only [Pipeline.batcherStep, h0]
            split
            · intro _
              simp [Pipeline.sealCur]
            · intro hne
              exact absurd rfl hne
    | shutdown =>
        revert hne
        simp only [Pipeline.batcherStep]
        split
        · intro hne
          exact absurd rfl hne
        · intro _
          simp [Pipeline.sealCur]
  · intro p hp
    obtain ⟨x, -, rfl⟩ := List.mem_map.mp hp
    rfl
  · intro hb
    exact List.count_eq_one_of_mem
      (Pipeline.pipelineBatches_nodup cfg inputs k) hb

/-- Witness for C8: a one-record run at batch max size 1 seals one batch,
consumed by the Router exactly once; the flush at the first record leaves
a freshly created empty open batch behind. -/
theorem batch_lifecycle_once_witness :
    (Pipeline.batcherStep ⟨1, 5⟩
        (Pipeline.BatcherState.init Pipeline.TelemetryKind.metric)
        (Pipeline.BatchEvent.add 0 (Pipeline.mkMetric 0))).1.cur =
      Pipeline.Batch.new 1 Pipeline.TelemetryKind.metric ∧
    (Pipeline.pipelineBatches
        ⟨fun _ => [7], ⟨10, 5⟩, ⟨1, 5⟩, ⟨3, 1, 10⟩⟩
        [Pipeline.Encoded.valid [Pipeline.mkMetric 0]]
        Pipeline.TelemetryKind.metric).count
      ⟨0, Pipeline.TelemetryKind.metric, [Pipeline.mkMetric 0]⟩ = 1 :=
  ⟨(batch_lifecycle_once 0 Pipeline.TelemetryKind.metric ⟨1, 5⟩
      (Pipeline.BatcherState.init Pipeline.TelemetryKind.metric)
      (Pipeline.BatchEvent.add 0 (Pipeline.mkMetric 0))
      ⟨fun _ => [7], ⟨10, 5⟩, ⟨1, 5⟩, ⟨3, 1, 10⟩⟩
      (Pipeline.Batch.new 0 Pipeline.TelemetryKind.metric) ⟨3, 1, 10⟩
      (fun _ => Pipeline.SendOutcome.success)
      [Pipeline.Encoded.valid [Pipeline.mkMetric 0]]).2.1 (by decide),
    (batch_lifecycle_once 0 Pipeline.TelemetryKind.metric ⟨1, 5⟩
      (Pipeline.BatcherState.init Pipeline.TelemetryKind.metric)
      (Pipeline.BatchEvent.add 0 (Pipeline.mkMetric 0))
      ⟨fun _ => [7], ⟨10, 5⟩, ⟨1, 5⟩, ⟨3, 1, 10⟩⟩
      ⟨0, Pipeline.TelemetryKind.metric, [Pipeline.mkMetric 0]⟩ ⟨3, 1, 10⟩
      (fun _ => Pipeline.SendOutcome.success)
      [Pipeline.Encoded.valid [Pipeline.mkMetric 0]]).2.2.2.2 (by decide)⟩
